import Mathlib

/-!
Verification development for the FantasyEdge repository
(`betting_lines_fetcher.py`, `fantasy_tools.py`).

The Python functions of the projection / selection core are embedded as
executable Lean definitions: floats become `ℚ`, Python dicts become
association lists (`List (key × value)`) with first-occurrence lookup,
`None` becomes `Option`, and Python's stable sorts become stable insertion
sorts.  Network / IO concerns (`requests`, caching, progress bars) are not
part of the embedding: every embedded function receives its data as an
explicit argument, exactly as the corresponding Python method receives its
already-fetched data.
-/

namespace FantasyEdge

/-- First-occurrence association-list lookup: the semantics of Python's
`dict.get` for dicts built by insertion (keys are unique by construction,
and `lookupKey` returns the first binding, which is then the only one). -/
def lookupKey {α β : Type} [DecidableEq α] : List (α × β) → α → Option β
  | [], _ => none
  | (k, v) :: rest, a => if a = k then some v else lookupKey rest a

/-- Keys of a Python dict in insertion order: first occurrences, kept in
their original order, later duplicates dropped. -/
def firstDedupAux {α : Type} [DecidableEq α] : List α → List α → List α
  | [], _ => []
  | x :: xs, seen => if x ∈ seen then firstDedupAux xs seen else x :: firstDedupAux xs (x :: seen)

def firstDedup {α : Type} [DecidableEq α] (l : List α) : List α :=
  firstDedupAux l []

/-- `Position` enum from `betting_lines_fetcher.py`. -/
inductive Position
  | QB
  | RB
  | WR
  | TE
  | K
  | DST
deriving DecidableEq, Repr

/-- Market-key strings of the `PropType` enum members used by the
projection engine. -/
def passTdsKey : String := "player_pass_tds"

def passYdsKey : String := "player_pass_yds"

def rushYdsKey : String := "player_rush_yds"

def rushTdsKey : String := "player_rush_tds"

def receptionsKey : String := "player_receptions"

def recYdsKey : String := "player_reception_yds"

def recTdsKey : String := "player_reception_tds"

/-- `FantasyScoring` dataclass (defaults as in the source). -/
structure FantasyScoring where
  pass_yards_per_point : ℚ := 25
  pass_td_points : ℚ := 4
  pass_interception_points : ℚ := -2
  pass_completion_points : ℚ := 0
  rush_yards_per_point : ℚ := 10
  rush_td_points : ℚ := 6
  reception_points : ℚ := 1
  receiving_yards_per_point : ℚ := 10
  receiving_td_points : ℚ := 6
  fg_points : ℚ := 3
  extra_point_points : ℚ := 1
  long_td_bonus : ℚ := 0
  long_pass_bonus : ℚ := 0
  long_rush_bonus : ℚ := 0
  long_receiving_bonus : ℚ := 0
deriving DecidableEq

def defaultScoring : FantasyScoring := {}

/-- `BettingLine` dataclass.  The `datetime` field is kept as its ISO
string; odds are signed integers when present. -/
structure BettingLine where
  player_name : String
  prop_type : String
  line : ℚ
  over_odds : Option Int
  under_odds : Option Int
  bookmaker : String
  last_update : String
deriving DecidableEq

/-- `FantasyProjection` dataclass.  `breakdown` is a dict built by
insertion, embedded as an association list in insertion order. -/
structure FantasyProjection where
  player_name : String
  position : Position
  projected_points : ℚ
  confidence : ℚ
  breakdown : List (String × ℚ)
deriving DecidableEq

/-- `PlayerProps` dataclass, restricted to the fields read by the embedded
functions (`optimize_lineup`, `analyze_trade` and friends use only the
name, the position and the projection). -/
structure PlayerProps where
  player_name : String
  position : Option Position
  fantasy_projection : Option FantasyProjection
deriving DecidableEq

/-- `FantasyEdgeAnalyzer._get_consensus_lines`: group the betting lines by
`prop_type` (dict insertion order) and average the quoted `line` values of
each group. -/
def getConsensusLines (betting_lines : List BettingLine) : List (String × ℚ) :=
  let keys := firstDedup (betting_lines.map (·.prop_type))
  keys.map fun k =>
    let vs := (betting_lines.filter (fun l => l.prop_type == k)).map (·.line)
    (k, vs.sum / (vs.length : ℚ))

/-- `FantasyEdgeAnalyzer._project_qb_points`: sequential accumulation of
the four QB categories, each contributing only when its market key is
present in the consensus map. -/
def projectQBPoints (s : FantasyScoring) (cl : List (String × ℚ)) :
    ℚ × List (String × ℚ) × List ℚ :=
  let step1 : ℚ × List (String × ℚ) × List ℚ :=
    match lookupKey cl passYdsKey with
    | some yards =>
        (yards / s.pass_yards_per_point,
         [("passing_yards", yards / s.pass_yards_per_point)], [(0.8 : ℚ)])
    | none => (0, [], [])
  let step2 :=
    match lookupKey cl passTdsKey with
    | some tds =>
        (step1.1 + tds * s.pass_td_points,
         step1.2.1 ++ [("passing_tds", tds * s.pass_td_points)],
         step1.2.2 ++ [(0.7 : ℚ)])
    | none => step1
  let step3 :=
    match lookupKey cl rushYdsKey with
    | some rush_yards =>
        (step2.1 + rush_yards / s.rush_yards_per_point,
         step2.2.1 ++ [("rushing_yards", rush_yards / s.rush_yards_per_point)],
         step2.2.2 ++ [(0.6 : ℚ)])
    | none => step2
  let step4 :=
    match lookupKey cl rushTdsKey with
    | some rush_tds =>
        (step3.1 + rush_tds * s.rush_td_points,
         step3.2.1 ++ [("rushing_tds", rush_tds * s.rush_td_points)],
         step3.2.2 ++ [(0.5 : ℚ)])
    | none => step3
  step4

/-- `FantasyEdgeAnalyzer._project_rb_points`. -/
def projectRBPoints (s : FantasyScoring) (cl : List (String × ℚ)) :
    ℚ × List (String × ℚ) × List ℚ :=
  let step1 : ℚ × List (String × ℚ) × List ℚ :=
    match lookupKey cl rushYdsKey with
    | some yards =>
        (yards / s.rush_yards_per_point,
         [("rushing_yards", yards / s.rush_yards_per_point)], [(0.8 : ℚ)])
    | none => (0, [], [])
  let step2 :=
    match lookupKey cl rushTdsKey with
    | some tds =>
        (step1.1 + tds * s.rush_td_points,
         step1.2.1 ++ [("rushing_tds", tds * s.rush_td_points)],
         step1.2.2 ++ [(0.6 : ℚ)])
    | none => step1
  let step3 :=
    match lookupKey cl receptionsKey with
    | some receptions =>
        (step2.1 + receptions * s.reception_points,
         step2.2.1 ++ [("receptions", receptions * s.reception_points)],
         step2.2.2 ++ [(0.7 : ℚ)])
    | none => step2
  let step4 :=
    match lookupKey cl recYdsKey with
    | some rec_yards =>
        (step3.1 + rec_yards / s.receiving_yards_per_point,
         step3.2.1 ++ [("receiving_yards", rec_yards / s.receiving_yards_per_point)],
         step3.2.2 ++ [(0.7 : ℚ)])
    | none => step3
  step4

/-- `FantasyEdgeAnalyzer._project_wr_points`. -/
def projectWRPoints (s : FantasyScoring) (cl : List (String × ℚ)) :
    ℚ × List (String × ℚ) × List ℚ :=
  let step1 : ℚ × List (String × ℚ) × List ℚ :=
    match lookupKey cl receptionsKey with
    | some receptions =>
        (receptions * s.reception_points,
         [("receptions", receptions * s.reception_points)], [(0.8 : ℚ)])
    | none => (0, [], [])
  let step2 :=
    match lookupKey cl recYdsKey with
    | some yards =>
        (step1.1 + yards / s.receiving_yards_per_point,
         step1.2.1 ++ [("receiving_yards", yards / s.receiving_yards_per_point)],
         step1.2.2 ++ [(0.8 : ℚ)])
    | none => step1
  let step3 :=
    match lookupKey cl recTdsKey with
    | some tds =>
        (step2.1 + tds * s.receiving_td_points,
         step2.2.1 ++ [("receiving_tds", tds * s.receiving_td_points)],
         step2.2.2 ++ [(0.6 : ℚ)])
    | none => step2
  step3

/-- `FantasyEdgeAnalyzer._project_te_points` delegates to the WR rule. -/
def projectTEPoints (s : FantasyScoring) (cl : List (String × ℚ)) :
    ℚ × List (String × ℚ) × List ℚ :=
  projectWRPoints s cl

/-- `FantasyEdgeAnalyzer._generate_fantasy_projection`: `None` when there
are no betting lines or no position; otherwise dispatch on the position
(K and DST fall through every branch of the `if/elif` chain, leaving the
zero accumulator), then average the collected confidence scores with the
`0.5` fallback for an empty list. -/
def generateFantasyProjection (s : FantasyScoring) (player_name : String)
    (position : Option Position) (betting_lines : List BettingLine) :
    Option FantasyProjection :=
  match position with
  | none => none
  | some pos =>
      if betting_lines = [] then none
      else
        let consensus_lines := getConsensusLines betting_lines
        let r :=
          match pos with
          | .QB => projectQBPoints s consensus_lines
          | .RB => projectRBPoints s consensus_lines
          | .WR => projectWRPoints s consensus_lines
          | .TE => projectTEPoints s consensus_lines
          | .K => (0, [], [])
          | .DST => (0, [], [])
        let overall_confidence : ℚ :=
          if r.2.2 = [] then 1/2 else r.2.2.sum / (r.2.2.length : ℚ)
        some ⟨player_name, pos, r.1, overall_confidence, r.2.1⟩

/-- The recommendation emitted by `compare_players`: either the
"Very close - consider other factors" branch (the spec's "too close to
call"), or the `f"Start {name} (+{margin:.2f} projected points)"` string,
embedded as the name/margin pair it is formatted from. -/
inductive Recommendation
  | tooClose
  | start (player : String) (margin : ℚ)
deriving DecidableEq, Repr

structure ComparisonResult where
  point_advantage : ℚ
  confidence_advantage : ℚ
  recommendation : Recommendation
deriving DecidableEq

/-- Core of `FantasyEdgeAnalyzer.compare_players`, applied after both
projections have been resolved (the code returns an error dict earlier
when either projection is absent). -/
def comparePlayers (player1_name : String) (proj1 : FantasyProjection)
    (player2_name : String) (proj2 : FantasyProjection) : ComparisonResult :=
  let point_advantage := proj1.projected_points - proj2.projected_points
  let confidence_advantage := proj1.confidence - proj2.confidence
  let recommendation :=
    if |point_advantage| < 1 then Recommendation.tooClose
    else if 0 < point_advantage then Recommendation.start player1_name point_advantage
    else Recommendation.start player2_name |point_advantage|
  ⟨point_advantage, confidence_advantage, recommendation⟩

/-- Sort key used by `optimize_lineup`:
`x.fantasy_projection.projected_points if x.fantasy_projection else 0`. -/
def projPoints (p : PlayerProps) : ℚ :=
  match p.fantasy_projection with
  | some f => f.projected_points
  | none => 0

/-- The players of the roster that obtained a projection
(`if analysis.fantasy_projection: player_analyses[player_name] = analysis`). -/
def eligiblePlayers (roster : List PlayerProps) : List PlayerProps :=
  roster.filter (fun p => p.fantasy_projection.isSome)

/-- `players_by_position` dict of `optimize_lineup`: keys in first-insertion
order, each key mapped to the eligible players carrying that position, in
roster order. -/
def groupByPosition (roster : List PlayerProps) :
    List (Option Position × List PlayerProps) :=
  (firstDedup ((eligiblePlayers roster).map (·.position))).map
    fun k => (k, (eligiblePlayers roster).filter (fun p => p.position == k))

/-- Stable descending insertion by projected points: an element is placed
before the first element with a strictly smaller key, so equal keys keep
their original relative order — the semantics of Python's stable
`list.sort(key=..., reverse=True)`. -/
def insertByPointsDesc (p : PlayerProps) : List PlayerProps → List PlayerProps
  | [] => [p]
  | q :: rest =>
      if projPoints q ≤ projPoints p then p :: q :: rest
      else q :: insertByPointsDesc p rest

def sortByPointsDesc (l : List PlayerProps) : List PlayerProps :=
  l.foldr insertByPointsDesc []

/-- The `optimal_lineup` dict of `optimize_lineup`: one entry per required
position that is present in the pool, holding the top `required_count`
players of that position. -/
def buildLineup (byPos : List (Option Position × List PlayerProps)) :
    List (Position × Nat) → List (Position × List PlayerProps)
  | [] => []
  | (pos, n) :: rest =>
      match lookupKey byPos (some pos) with
      | some players => (pos, players.take n) :: buildLineup byPos rest
      | none => buildLineup byPos rest

structure LineupResult where
  optimal_lineup : List (Position × List PlayerProps)
  total_projected_points : ℚ
deriving DecidableEq

/-- `FantasyEdgeAnalyzer.optimize_lineup` (selection core; the
`bench_players` entry of the returned dict is not modelled).  The total is
accumulated exactly over the selected entries. -/
def optimizeLineup (roster : List PlayerProps) (lineup_requirements : List (Position × Nat)) :
    LineupResult :=
  let byPos := (groupByPosition roster).map fun kv => (kv.1, sortByPointsDesc kv.2)
  let entries := buildLineup byPos lineup_requirements
  ⟨entries, (entries.map fun kv => (kv.2.map projPoints).sum).sum⟩

/-- One candidate record of the `players_by_position` dicts built by
`optimize_dfs_lineup`. -/
structure DFSPlayer where
  name : String
  salary : Int
  projected_points : ℚ
  points_per_dollar : ℚ
  team : String
deriving DecidableEq

/-- `ppd = projected_points / (salary / 1000) if salary > 0 else 0` from
`optimize_dfs_lineup`. -/
def pointsPerDollar (projected_points : ℚ) (salary : Int) : ℚ :=
  if 0 < salary then projected_points / ((salary : ℚ) / 1000) else 0

/-- `DFSConstraints` dataclass, restricted to the fields read by
`_build_dfs_lineup` (`min_salary`, `stack_requirements` and
`banned_players` are consumed before the lineup is built or not at all). -/
structure DFSConstraints where
  salary_cap : Int := 50000
  max_players_per_team : Nat := 4
  must_include : List String := []
deriving DecidableEq

/-- The mutable locals of `_build_dfs_lineup` (`lineup`, `total_salary`,
`total_points`, `team_counts`) together with the `players_by_position`
pool, which the must-include phase mutates via `players.remove(player)`. -/
structure BuildState where
  lineup : List (Position × List DFSPlayer)
  total_salary : Int
  total_points : ℚ
  team_counts : List (String × Nat)
  pool : List (Position × List DFSPlayer)
deriving DecidableEq

/-- `team_counts.get(team, 0)`. -/
def teamCount (tc : List (String × Nat)) (t : String) : Nat :=
  (lookupKey tc t).getD 0

/-- `team_counts[team] = team_counts.get(team, 0) + 1`: bump an existing
binding in place, or insert a new one at the end (dict insertion order). -/
def bumpTeam : List (String × Nat) → String → List (String × Nat)
  | [], t => [(t, 1)]
  | (s, n) :: rest, t =>
      if t = s then (s, n + 1) :: rest else (s, n) :: bumpTeam rest t

/-- `len(lineup[position])` with a missing key read as the empty list. -/
def lineupLen (l : List (Position × List DFSPlayer)) (pos : Position) : Nat :=
  ((lookupKey l pos).getD []).length

/-- `lineup[position].append(player)` (appends to the first binding of the
key; inserts a fresh singleton binding when the key is absent). -/
def appendAt : List (Position × List DFSPlayer) → Position → DFSPlayer →
    List (Position × List DFSPlayer)
  | [], pos, p => [(pos, [p])]
  | (q, ps) :: rest, pos, p =>
      if pos = q then (q, ps ++ [p]) :: rest else (q, ps) :: appendAt rest pos p

/-- `if position not in lineup: lineup[position] = []`. -/
def ensureKey (l : List (Position × List DFSPlayer)) (pos : Position) :
    List (Position × List DFSPlayer) :=
  match lookupKey l pos with
  | some _ => l
  | none => l ++ [(pos, [])]

/-- `players.remove(player)` inside the pool dict: erase the first
occurrence of the player record from the list bound to the position. -/
def removeAt : List (Position × List DFSPlayer) → Position → DFSPlayer →
    List (Position × List DFSPlayer)
  | [], _, _ => []
  | (q, ps) :: rest, pos, p =>
      if pos = q then (q, ps.erase p) :: rest else (q, ps) :: removeAt rest pos p

/-- Committing a player in the must-include phase: append to the lineup,
deduct salary, add points, bump the team count and remove the player from
the candidate pool.  Note there is no salary-cap or per-team check here,
exactly as in the source. -/
def commitMust (st : BuildState) (pos : Position) (p : DFSPlayer) : BuildState :=
  { lineup := appendAt st.lineup pos p
    total_salary := st.total_salary + p.salary
    total_points := st.total_points + p.projected_points
    team_counts := bumpTeam st.team_counts p.team
    pool := removeAt st.pool pos p }

/-- Committing a player in the fill phase (the pool is not mutated there). -/
def commitFill (st : BuildState) (pos : Position) (p : DFSPlayer) : BuildState :=
  { st with
    lineup := appendAt st.lineup pos p
    total_salary := st.total_salary + p.salary
    total_points := st.total_points + p.projected_points
    team_counts := bumpTeam st.team_counts p.team }

/-- The scan of one must-include name over the position groups: at the
first position whose list holds a player of that name, a `lineup` entry is
ensured; the player is committed when that position's requirement is not
yet filled, otherwise the remaining positions are scanned.  A name found
nowhere (or only at filled positions) is silently dropped. -/
def scanPositions (reqs : List (Position × Nat)) (nm : String) (st : BuildState) :
    List (Position × List DFSPlayer) → BuildState
  | [] => st
  | (pos, players) :: rest =>
      match players.find? (fun p => p.name == nm) with
      | none => scanPositions reqs nm st rest
      | some p =>
          if lineupLen (ensureKey st.lineup pos) pos < (lookupKey reqs pos).getD 0 then
            commitMust { st with lineup := ensureKey st.lineup pos } pos p
          else
            scanPositions reqs nm { st with lineup := ensureKey st.lineup pos } rest

/-- Must-include phase of `_build_dfs_lineup` (`for player_name in
constraints.must_include: ...`): each name is scanned over the current
(possibly already mutated) pool. -/
def mustIncludePhase (reqs : List (Position × Nat)) (names : List String)
    (st : BuildState) : BuildState :=
  match names with
  | [] => st
  | nm :: rest => mustIncludePhase reqs rest (scanPositions reqs nm st st.pool)

/-- The candidate loop of the fill phase for one position: stop once the
requirement is met, skip candidates that would burst the salary cap or the
per-team limit, commit the rest. -/
def fillPosition (cap : Int) (maxTeam : Nat) (required : Nat) (pos : Position)
    (st : BuildState) : List DFSPlayer → BuildState
  | [] => st
  | p :: rest =>
      if required ≤ lineupLen st.lineup pos then st
      else if cap < st.total_salary + p.salary then
        fillPosition cap maxTeam required pos st rest
      else if maxTeam ≤ teamCount st.team_counts p.team then
        fillPosition cap maxTeam required pos st rest
      else
        fillPosition cap maxTeam required pos (commitFill st pos p) rest

/-- One iteration of the fill-phase loop: ensure a `lineup` entry for the
position, compute `remaining_needed = required_count - current_count`, and
when positive (and the position occurs in the pool) run the candidate loop
over the first `remaining_needed * 3` pre-sorted candidates. -/
def fillStep (cap : Int) (maxTeam : Nat) (pr : Position × Nat) (st : BuildState) :
    BuildState :=
  match lookupKey st.pool pr.1 with
  | some candidates =>
      if 0 < pr.2 - lineupLen (ensureKey st.lineup pr.1) pr.1 then
        fillPosition cap maxTeam pr.2 pr.1 { st with lineup := ensureKey st.lineup pr.1 }
          (candidates.take ((pr.2 - lineupLen (ensureKey st.lineup pr.1) pr.1) * 3))
      else { st with lineup := ensureKey st.lineup pr.1 }
  | none => { st with lineup := ensureKey st.lineup pr.1 }

def fillPhase (cap : Int) (maxTeam : Nat) (reqs : List (Position × Nat))
    (st : BuildState) : BuildState :=
  match reqs with
  | [] => st
  | pr :: rest => fillPhase cap maxTeam rest (fillStep cap maxTeam pr st)

/-- The dictionary returned by `_build_dfs_lineup` (the `lineup` entry of
player names is derivable from `lineup_details`, kept here as the
`lineup` field of player records). -/
structure DFSResult where
  lineup : List (Position × List DFSPlayer)
  total_salary : Int
  total_projected_points : ℚ
  salary_remaining : Int
  team_distribution : List (String × Nat)
deriving DecidableEq

/-- `FantasyTools._build_dfs_lineup`: must-include phase, then fill phase;
always returns the result dictionary — there is no infeasibility outcome. -/
def buildDFSLineup (players_by_position : List (Position × List DFSPlayer))
    (lineup_requirements : List (Position × Nat)) (constraints : DFSConstraints) :
    DFSResult :=
  let st0 : BuildState := ⟨[], 0, 0, [], players_by_position⟩
  let st1 := mustIncludePhase lineup_requirements constraints.must_include st0
  let st2 := fillPhase constraints.salary_cap constraints.max_players_per_team
    lineup_requirements st1
  ⟨st2.lineup, st2.total_salary, st2.total_points,
    constraints.salary_cap - st2.total_salary, st2.team_counts⟩

/-- `LeagueType` enum from `fantasy_tools.py`. -/
inductive LeagueType
  | redraft
  | dynasty
  | keeper
  | dfs
deriving DecidableEq, Repr

/-- `FantasyTools._calculate_player_value`. -/
def calculatePlayerValue (analysis : PlayerProps) (league_type : LeagueType) : ℚ :=
  match analysis.fantasy_projection with
  | none => 0
  | some proj =>
      let base_value := proj.projected_points
      match league_type with
      | .dynasty => base_value * (1.2 : ℚ)
      | .dfs => base_value * proj.confidence
      | _ => base_value

structure TradeProposal where
  give_players : List String
  receive_players : List String
  trade_value : ℚ
  explanation : String
  confidence : ℚ
deriving DecidableEq

/-- `FantasyTools.analyze_trade`, applied to the already-resolved analyses
of both sides (players whose fetch fails are skipped before this point and
simply do not appear in the lists). -/
def analyzeTrade (give_analyses receive_analyses : List PlayerProps)
    (league_type : LeagueType) : TradeProposal :=
  let give_value := (give_analyses.map (calculatePlayerValue · league_type)).sum
  let receive_value := (receive_analyses.map (calculatePlayerValue · league_type)).sum
  let trade_value := receive_value - give_value
  let explanation :=
    if 5 < trade_value then "Strongly favorable trade - you're getting significant value"
    else if 1 < trade_value then "Favorable trade - slight advantage to you"
    else if -1 < trade_value then "Fair trade - roughly equal value"
    else if -5 < trade_value then "Unfavorable trade - you're giving up value"
    else "Strongly unfavorable trade - avoid this deal"
  let give_confidence :=
    if give_analyses = [] then 0
    else ((give_analyses.filterMap (·.fantasy_projection)).map (·.confidence)).sum /
      (give_analyses.length : ℚ)
  let receive_confidence :=
    if receive_analyses = [] then 0
    else ((receive_analyses.filterMap (·.fantasy_projection)).map (·.confidence)).sum /
      (receive_analyses.length : ℚ)
  ⟨give_analyses.map (·.player_name), receive_analyses.map (·.player_name),
    trade_value, explanation, (give_confidence + receive_confidence) / 2⟩

/-- Modelled from the spec: the §4.2 per-position category table,
`(market key, confidence weight)` per row, used to compare the code's
confidence computation against the spec's description.  K and DST have no
rows. -/
def categoryTable : Position → List (String × ℚ)
  | .QB => [(passYdsKey, 0.8), (passTdsKey, 0.7), (rushYdsKey, 0.6), (rushTdsKey, 0.5)]
  | .RB => [(rushYdsKey, 0.8), (rushTdsKey, 0.6), (receptionsKey, 0.7), (recYdsKey, 0.7)]
  | .WR => [(receptionsKey, 0.8), (recYdsKey, 0.8), (recTdsKey, 0.6)]
  | .TE => [(receptionsKey, 0.8), (recYdsKey, 0.8), (recTdsKey, 0.6)]
  | .K => []
  | .DST => []

/-- Modelled from the spec: the confidence weights of exactly the listed
categories present in a consensus map. -/
def presentWeights (pos : Position) (cl : List (String × ℚ)) : List ℚ :=
  ((categoryTable pos).filter (fun kv => (lookupKey cl kv.1).isSome)).map (·.2)

/-- Modelled from the spec: arithmetic mean of the present categories'
weights, defaulting to `0.5` when no listed category is present. -/
def specConfidence (pos : Position) (cl : List (String × ℚ)) : ℚ :=
  if presentWeights pos cl = [] then 1/2
  else (presentWeights pos cl).sum / ((presentWeights pos cl).length : ℚ)

/-- Number of eligible (projected) roster players at a position. -/
def eligibleCount (roster : List PlayerProps) (pos : Position) : Nat :=
  ((eligiblePlayers roster).filter (fun p => p.position == some pos)).length

/-! Concrete inputs used by counterexamples and witnesses. -/

/-- A must-include quarterback whose salary alone exceeds the cap. -/
def c1qb : DFSPlayer := ⟨"Expensive QB", 60000, 30, pointsPerDollar 30 60000, "BUF"⟩

def c1Pool : List (Position × List DFSPlayer) := [(.QB, [c1qb])]

def c1Reqs : List (Position × Nat) := [(.QB, 1)]

def c1Cons : DFSConstraints :=
  { salary_cap := 50000, max_players_per_team := 4, must_include := ["Expensive QB"] }

/-- Input for the amended C1 invariant witness: no must-include list. -/
def c1wPool : List (Position × List DFSPlayer) :=
  [(.QB, [⟨"Cheap QB", 7000, 22, pointsPerDollar 22 7000, "KC"⟩])]

def c1wCons : DFSConstraints :=
  { salary_cap := 50000, max_players_per_team := 4, must_include := [] }

/-- Two must-include players competing for a single required slot. -/
def c2a : DFSPlayer := ⟨"Alpha", 6000, 20, pointsPerDollar 20 6000, "KC"⟩

def c2b : DFSPlayer := ⟨"Beta", 5000, 18, pointsPerDollar 18 5000, "SF"⟩

def c2Pool : List (Position × List DFSPlayer) := [(.QB, [c2a, c2b])]

def c2Reqs : List (Position × Nat) := [(.QB, 1)]

def c2Cons : DFSConstraints :=
  { salary_cap := 50000, max_players_per_team := 4, must_include := ["Alpha", "Beta"] }

/-- A field-goal prop quote for a kicker. -/
def kickLine : BettingLine :=
  ⟨"Kicker One", "player_field_goals", 2.5, some (-110), some (-110),
    "DraftKings", "2024-11-01T00:00:00Z"⟩

/-- A 275-yard passing prop quote. -/
def q275 : BettingLine :=
  ⟨"QB One", "player_pass_yds", 275, some (-110), some (-110),
    "DraftKings", "2024-11-01T00:00:00Z"⟩

/-- The projection produced for `q275` under the default scoring rule. -/
def c4proj : FantasyProjection :=
  ⟨"QB One", Position.QB, 11, 4/5, [("passing_yards", 11)]⟩

/-- Two passing-yards quotes from different bookmakers (250 and 300). -/
def qa250 : BettingLine :=
  ⟨"QB One", "player_pass_yds", 250, some (-110), some (-110),
    "DraftKings", "2024-11-01T00:00:00Z"⟩

def qb300 : BettingLine :=
  ⟨"QB One", "player_pass_yds", 300, some (-115), some (-105),
    "FanDuel", "2024-11-01T00:00:00Z"⟩

/-- Concrete projections for the comparator witness. -/
def w7p1 : FantasyProjection := ⟨"W7A", .QB, 10, 0.8, []⟩

def w7p2 : FantasyProjection := ⟨"W7B", .QB, 9, 0.7, []⟩

def w7p3 : FantasyProjection := ⟨"W7C", .QB, 9.99, 0.6, []⟩

/-- Concrete roster for the lineup-optimizer witness. -/
def w8a : PlayerProps := ⟨"A", some .WR, some ⟨"A", .WR, 14, 0.8, []⟩⟩

def w8b : PlayerProps := ⟨"B", some .WR, some ⟨"B", .WR, 12, 0.7, []⟩⟩

def w8c : PlayerProps := ⟨"C", some .WR, none⟩

/-- RB candidates in descending points-per-salary order: the first three
exceed the cap on their own, the fourth is cheap and fits, but lies beyond
the `remaining_needed * 3` window. -/
def c10r1 : DFSPlayer := ⟨"R1", 60000, 100, pointsPerDollar 100 60000, "AAA"⟩

def c10r2 : DFSPlayer := ⟨"R2", 60000, 90, pointsPerDollar 90 60000, "BBB"⟩

def c10r3 : DFSPlayer := ⟨"R3", 60000, 80, pointsPerDollar 80 60000, "CCC"⟩

def c10r4 : DFSPlayer := ⟨"R4", 1000, 1, pointsPerDollar 1 1000, "DDD"⟩

def c10Pool : List (Position × List DFSPlayer) :=
  [(.RB, [c10r1, c10r2, c10r3, c10r4])]

def c10Reqs : List (Position × Nat) := [(.RB, 1)]

def c10Cons : DFSConstraints :=
  { salary_cap := 50000, max_players_per_team := 4, must_include := [] }

/-! Helper lemmas. -/

theorem lookupKey_map_self {α β : Type} [DecidableEq α] (keys : List α) (f : α → β) (a : α) :
    lookupKey (keys.map fun k => (k, f k)) a = if a ∈ keys then some (f a) else none := by
  induction keys with
  | nil => simp [lookupKey]
  | cons k ks ih =>
      by_cases h : a = k
      · subst h
        simp [lookupKey]
      · simp [lookupKey, h, ih, List.mem_cons]

theorem lookupKey_append_of_some {α β : Type} [DecidableEq α] (l1 l2 : List (α × β)) (a : α)
    (v : β) (h : lookupKey l1 a = some v) : lookupKey (l1 ++ l2) a = some v := by
  induction l1 with
  | nil => simp [lookupKey] at h
  | cons kv rest ih =>
      obtain ⟨k, w⟩ := kv
      by_cases hk : a = k
      · subst hk
        simp [lookupKey] at h ⊢
        exact h
      · simp [lookupKey, hk] at h ⊢
        exact ih h

theorem lookupKey_append_of_none {α β : Type} [DecidableEq α] (l1 l2 : List (α × β)) (a : α)
    (h : lookupKey l1 a = none) : lookupKey (l1 ++ l2) a = lookupKey l2 a := by
  induction l1 with
  | nil => simp
  | cons kv rest ih =>
      obtain ⟨k, w⟩ := kv
      by_cases hk : a = k
      · subst hk
        simp [lookupKey] at h
      · simp [lookupKey, hk] at h ⊢
        exact ih h

theorem mem_firstDedupAux {α : Type} [DecidableEq α] (a : α) :
    ∀ (l seen : List α), a ∈ firstDedupAux l seen ↔ a ∈ l ∧ a ∉ seen
  | [], seen => by simp [firstDedupAux]
  | x :: xs, seen => by
      rw [firstDedupAux]
      split_ifs with hx
      · rw [mem_firstDedupAux a xs seen]
        constructor
        · rintro ⟨h1, h2⟩
          exact ⟨List.mem_cons_of_mem _ h1, h2⟩
        · rintro ⟨h1, h2⟩
          rcases List.mem_cons.mp h1 with rfl | h1
          · exact absurd hx h2
          · exact ⟨h1, h2⟩
      · constructor
        · intro h
          rcases List.mem_cons.mp h with rfl | h
          · exact ⟨List.mem_cons_self _ _, hx⟩
          · rw [mem_firstDedupAux a xs (x :: seen)] at h
            refine ⟨List.mem_cons_of_mem _ h.1, fun hs => h.2 (List.mem_cons_of_mem _ hs)⟩
        · rintro ⟨h1, h2⟩
          by_cases hax : a = x
          · subst hax
            exact List.mem_cons_self _ _
          · rcases List.mem_cons.mp h1 with rfl | h1
            · exact absurd rfl hax
            · refine List.mem_cons_of_mem _ ?_
              rw [mem_firstDedupAux a xs (x :: seen)]
              refine ⟨h1, fun hs => ?_⟩
              rcases List.mem_cons.mp hs with h | h
              · exact hax h
              · exact h2 h

theorem mem_firstDedup {α : Type} [DecidableEq α] (a : α) (l : List α) :
    a ∈ firstDedup l ↔ a ∈ l := by
  rw [firstDedup, mem_firstDedupAux]
  simp

theorem lookupKey_eq_of_mem_nodup {α β : Type} [DecidableEq α] :
    ∀ (l : List (α × β)) (a : α) (b : β),
      (l.map Prod.fst).Nodup → (a, b) ∈ l → lookupKey l a = some b
  | [], _, _, _, hm => by cases hm
  | (k, v) :: rest, a, b, hn, hm => by
      rw [List.map_cons, List.nodup_cons] at hn
      rcases List.mem_cons.mp hm with heq | hm2
      · cases heq
        simp [lookupKey]
      · have hk : a ≠ k := by
          rintro rfl
          exact hn.1 (List.mem_map.mpr ⟨(a, b), hm2, rfl⟩)
        simp only [lookupKey, if_neg hk]
        exact lookupKey_eq_of_mem_nodup rest a b hn.2 hm2

/-- Arithmetic mean of a list of values in `[0,1]` (with the `0.5` default
for the empty list) lies in `[0,1]`. -/
theorem mean_in_unit (l : List ℚ) (h : ∀ x ∈ l, 0 ≤ x ∧ x ≤ 1) :
    0 ≤ (if l = [] then (1/2 : ℚ) else l.sum / (l.length : ℚ)) ∧
      (if l = [] then (1/2 : ℚ) else l.sum / (l.length : ℚ)) ≤ 1 := by
  by_cases hl : l = []
  · subst hl
    norm_num
  · rw [if_neg hl]
    have hlen : 0 < (l.length : ℚ) := by
      exact_mod_cast List.length_pos.mpr hl
    refine ⟨div_nonneg (List.sum_nonneg fun x hx => (h x hx).1) hlen.le, ?_⟩
    rw [div_le_one hlen]
    calc l.sum ≤ l.length • (1 : ℚ) := List.sum_le_card_nsmul l 1 fun x hx => (h x hx).2
      _ = (l.length : ℚ) := by simp

theorem teamCount_bumpTeam (tc : List (String × Nat)) (t u : String) :
    teamCount (bumpTeam tc t) u =
      if u = t then teamCount tc t + 1 else teamCount tc u := by
  induction tc with
  | nil =>
      by_cases h : u = t <;> simp [bumpTeam, teamCount, lookupKey, h]
  | cons kv rest ih =>
      obtain ⟨s, n⟩ := kv
      by_cases hts : t = s
      · subst hts
        by_cases hut : u = t <;> simp [bumpTeam, teamCount, lookupKey, hut]
      · by_cases hus : u = s
        · subst hus
          have hut : u ≠ t := fun e => hts e.symm
          simp [bumpTeam, teamCount, lookupKey, hts, hut]
        · by_cases hut : u = t <;>
            simp_all [bumpTeam, teamCount, lookupKey, hts, hus]

theorem lookupKey_appendAt_self (l : List (Position × List DFSPlayer)) (pos : Position)
    (p : DFSPlayer) :
    lookupKey (appendAt l pos p) pos = some (((lookupKey l pos).getD []) ++ [p]) := by
  induction l with
  | nil => simp [appendAt, lookupKey]
  | cons kv rest ih =>
      obtain ⟨q, ps⟩ := kv
      by_cases h : pos = q
      · subst h
        simp [appendAt, lookupKey]
      · simp [appendAt, lookupKey, h, ih]

theorem lookupKey_appendAt_ne (l : List (Position × List DFSPlayer)) (pos q : Position)
    (p : DFSPlayer) (h : q ≠ pos) :
    lookupKey (appendAt l pos p) q = lookupKey l q := by
  induction l with
  | nil => simp [appendAt, lookupKey, h]
  | cons kv rest ih =>
      obtain ⟨k, ps⟩ := kv
      by_cases hpk : pos = k
      · subst hpk
        simp [appendAt, lookupKey, h, ih]
      · by_cases hqk : q = k <;> simp [appendAt, lookupKey, hpk, hqk, ih]

theorem lookupKey_ensureKey_self (l : List (Position × List DFSPlayer)) (pos : Position) :
    lookupKey (ensureKey l pos) pos = some ((lookupKey l pos).getD []) := by
  cases hk : lookupKey l pos with
  | some v => simp [ensureKey, hk]
  | none =>
      simp only [ensureKey, hk]
      rw [lookupKey_append_of_none _ _ _ hk]
      simp [lookupKey]

theorem lookupKey_ensureKey_ne (l : List (Position × List DFSPlayer)) (pos q : Position)
    (h : q ≠ pos) : lookupKey (ensureKey l pos) q = lookupKey l q := by
  cases hk : lookupKey l pos with
  | some v => simp [ensureKey, hk]
  | none =>
      simp only [ensureKey, hk]
      cases hq : lookupKey l q with
      | some w => exact lookupKey_append_of_some _ _ _ _ hq
      | none =>
          rw [lookupKey_append_of_none _ _ _ hq]
          simp [lookupKey, h]

theorem lineupLen_appendAt_self (l : List (Position × List DFSPlayer)) (pos : Position)
    (p : DFSPlayer) : lineupLen (appendAt l pos p) pos = lineupLen l pos + 1 := by
  simp [lineupLen, lookupKey_appendAt_self]

theorem lineupLen_appendAt_ne (l : List (Position × List DFSPlayer)) (pos q : Position)
    (p : DFSPlayer) (h : q ≠ pos) : lineupLen (appendAt l pos p) q = lineupLen l q := by
  simp [lineupLen, lookupKey_appendAt_ne _ _ _ _ h]

theorem lineupLen_ensureKey (l : List (Position × List DFSPlayer)) (pos q : Position) :
    lineupLen (ensureKey l pos) q = lineupLen l q := by
  by_cases h : q = pos
  · subst h
    simp only [lineupLen, lookupKey_ensureKey_self, Option.getD_some]
  · simp [lineupLen, lookupKey_ensureKey_ne _ _ _ h]

/-- The fill phase's candidate loop preserves "total salary within cap and
every team count within the per-team limit": it only commits a candidate
after checking both constraints. -/
theorem fillPosition_cap_team (cap : Int) (maxTeam : Nat) (required : Nat) (pos : Position) :
    ∀ (l : List DFSPlayer) (st : BuildState),
      st.total_salary ≤ cap → (∀ t, teamCount st.team_counts t ≤ maxTeam) →
      (fillPosition cap maxTeam required pos st l).total_salary ≤ cap ∧
        ∀ t, teamCount (fillPosition cap maxTeam required pos st l).team_counts t ≤ maxTeam
  | [], st, h1, h2 => by
      rw [fillPosition]
      exact ⟨h1, h2⟩
  | p :: rest, st, h1, h2 => by
      rw [fillPosition]
      split_ifs with hreq hcap hteam
      · exact ⟨h1, h2⟩
      · exact fillPosition_cap_team cap maxTeam required pos rest st h1 h2
      · exact fillPosition_cap_team cap maxTeam required pos rest st h1 h2
      · refine fillPosition_cap_team cap maxTeam required pos rest _ ?_ ?_
        · show st.total_salary + p.salary ≤ cap
          omega
        · intro t
          show teamCount (bumpTeam st.team_counts p.team) t ≤ maxTeam
          rw [teamCount_bumpTeam]
          split_ifs with ht
          · omega
          · exact h2 t

/-- One fill-phase iteration preserves the salary-cap and per-team
invariants. -/
theorem fillStep_cap_team (cap : Int) (maxTeam : Nat) (pr : Position × Nat)
    (st : BuildState) (h1 : st.total_salary ≤ cap)
    (h2 : ∀ t, teamCount st.team_counts t ≤ maxTeam) :
    (fillStep cap maxTeam pr st).total_salary ≤ cap ∧
      ∀ t, teamCount (fillStep cap maxTeam pr st).team_counts t ≤ maxTeam := by
  rw [fillStep]
  split
  · split_ifs with hneed
    · exact fillPosition_cap_team cap maxTeam pr.2 pr.1 _ _ h1 h2
    · exact ⟨h1, h2⟩
  · exact ⟨h1, h2⟩

/-- The fill phase preserves the salary-cap and per-team invariants. -/
theorem fillPhase_cap_team (cap : Int) (maxTeam : Nat) :
    ∀ (reqs : List (Position × Nat)) (st : BuildState),
      st.total_salary ≤ cap → (∀ t, teamCount st.team_counts t ≤ maxTeam) →
      (fillPhase cap maxTeam reqs st).total_salary ≤ cap ∧
        ∀ t, teamCount (fillPhase cap maxTeam reqs st).team_counts t ≤ maxTeam
  | [], st, h1, h2 => by
      rw [fillPhase]
      exact ⟨h1, h2⟩
  | pr :: rest, st, h1, h2 => by
      rw [fillPhase]
      obtain ⟨g1, g2⟩ := fillStep_cap_team cap maxTeam pr st h1 h2
      exact fillPhase_cap_team cap maxTeam rest _ g1 g2

/-- The must-include scan never pushes a position's committed count above
that position's requirement: a player is committed only after checking
`len(lineup[position]) < lineup_requirements.get(position, 0)`. -/
theorem scanPositions_req (reqs : List (Position × Nat)) (nm : String) :
    ∀ (items : List (Position × List DFSPlayer)) (st : BuildState),
      (∀ q, lineupLen st.lineup q ≤ (lookupKey reqs q).getD 0) →
      ∀ q, lineupLen (scanPositions reqs nm st items).lineup q ≤ (lookupKey reqs q).getD 0
  | [], st, h => by
      rw [scanPositions]
      exact h
  | (pos, players) :: rest, st, h => by
      rw [scanPositions]
      split
      · exact scanPositions_req reqs nm rest st h
      · rename_i p hfind
        split_ifs with hlt
        · intro q
          show lineupLen (appendAt (ensureKey st.lineup pos) pos p) q ≤
            (lookupKey reqs q).getD 0
          by_cases hq : q = pos
          · subst hq
            rw [lineupLen_appendAt_self]
            omega
          · rw [lineupLen_appendAt_ne _ _ _ _ hq, lineupLen_ensureKey]
            exact h q
        · refine scanPositions_req reqs nm rest _ (fun q => ?_)
          show lineupLen (ensureKey st.lineup pos) q ≤ (lookupKey reqs q).getD 0
          rw [lineupLen_ensureKey]
          exact h q

/-- The whole must-include phase respects per-position requirements. -/
theorem mustIncludePhase_req (reqs : List (Position × Nat)) :
    ∀ (names : List String) (st : BuildState),
      (∀ q, lineupLen st.lineup q ≤ (lookupKey reqs q).getD 0) →
      ∀ q, lineupLen (mustIncludePhase reqs names st).lineup q ≤ (lookupKey reqs q).getD 0
  | [], st, h => by
      rw [mustIncludePhase]
      exact h
  | nm :: rest, st, h => by
      rw [mustIncludePhase]
      exact mustIncludePhase_req reqs rest _ (scanPositions_req reqs nm st.pool st h)

/-- The fill-phase candidate loop respects per-position requirements given
that the loop's own requirement bound is below the global one. -/
theorem fillPosition_req (cap : Int) (maxTeam : Nat) (required : Nat) (pos : Position)
    (f : Position → Nat) (hf : required ≤ f pos) :
    ∀ (l : List DFSPlayer) (st : BuildState),
      (∀ q, lineupLen st.lineup q ≤ f q) →
      ∀ q, lineupLen (fillPosition cap maxTeam required pos st l).lineup q ≤ f q
  | [], st, h => by
      rw [fillPosition]
      exact h
  | p :: rest, st, h => by
      rw [fillPosition]
      split_ifs with hreq hcap hteam
      · exact h
      · exact fillPosition_req cap maxTeam required pos f hf rest st h
      · exact fillPosition_req cap maxTeam required pos f hf rest st h
      · refine fillPosition_req cap maxTeam required pos f hf rest _ (fun q => ?_)
        show lineupLen (appendAt st.lineup pos p) q ≤ f q
        by_cases hq : q = pos
        · subst hq
          rw [lineupLen_appendAt_self]
          omega
        · rw [lineupLen_appendAt_ne _ _ _ _ hq]
          exact h q

/-- One fill-phase iteration respects per-position requirements. -/
theorem fillStep_req (cap : Int) (maxTeam : Nat) (pr : Position × Nat)
    (f : Position → Nat) (hle : pr.2 ≤ f pr.1) (st : BuildState)
    (h : ∀ q, lineupLen st.lineup q ≤ f q) :
    ∀ q, lineupLen (fillStep cap maxTeam pr st).lineup q ≤ f q := by
  rw [fillStep]
  split
  · split_ifs with hneed
    · refine fillPosition_req cap maxTeam pr.2 pr.1 f hle _ _ (fun q => ?_)
      show lineupLen (ensureKey st.lineup pr.1) q ≤ f q
      rw [lineupLen_ensureKey]
      exact h q
    · intro q
      show lineupLen (ensureKey st.lineup pr.1) q ≤ f q
      rw [lineupLen_ensureKey]
      exact h q
  · intro q
    show lineupLen (ensureKey st.lineup pr.1) q ≤ f q
    rw [lineupLen_ensureKey]
    exact h q

/-- The whole fill phase respects per-position requirements. -/
theorem fillPhase_req (cap : Int) (maxTeam : Nat) (f : Position → Nat) :
    ∀ (reqs : List (Position × Nat)) (st : BuildState),
      (∀ pr ∈ reqs, pr.2 ≤ f pr.1) →
      (∀ q, lineupLen st.lineup q ≤ f q) →
      ∀ q, lineupLen (fillPhase cap maxTeam reqs st).lineup q ≤ f q
  | [], st, _, h => by
      rw [fillPhase]
      exact h
  | pr :: rest, st, hall, h => by
      rw [fillPhase]
      refine fillPhase_req cap maxTeam f rest _
        (fun x hx => hall x (List.mem_cons_of_mem _ hx)) ?_
      exact fillStep_req cap maxTeam pr f (hall pr (List.mem_cons_self _ _)) st h

theorem length_insertByPointsDesc (p : PlayerProps) (l : List PlayerProps) :
    (insertByPointsDesc p l).length = l.length + 1 := by
  induction l with
  | nil => rfl
  | cons q rest ih =>
      by_cases h : projPoints q ≤ projPoints p <;> simp [insertByPointsDesc, h, ih]

theorem length_sortByPointsDesc (l : List PlayerProps) :
    (sortByPointsDesc l).length = l.length := by
  induction l with
  | nil => rfl
  | cons q rest ih =>
      rw [sortByPointsDesc, List.foldr_cons, length_insertByPointsDesc]
      rw [sortByPointsDesc] at ih
      rw [ih, List.length_cons]

/-- Resolving a key in the sorted per-position groups of
`optimize_lineup`. -/
theorem lookupKey_byPos (roster : List PlayerProps) (k : Option Position) :
    lookupKey ((groupByPosition roster).map fun kv => (kv.1, sortByPointsDesc kv.2)) k =
      if k ∈ (eligiblePlayers roster).map (·.position) then
        some (sortByPointsDesc ((eligiblePlayers roster).filter (fun p => p.position == k)))
      else none := by
  rw [groupByPosition, List.map_map]
  have hcomp :
      ((fun kv : Option Position × List PlayerProps => (kv.1, sortByPointsDesc kv.2)) ∘
        fun kk => (kk, (eligiblePlayers roster).filter (fun p => p.position == kk))) =
      fun kk => (kk, sortByPointsDesc ((eligiblePlayers roster).filter
        (fun p => p.position == kk))) := rfl
  rw [hcomp, lookupKey_map_self]
  simp only [mem_firstDedup]

theorem lookupKey_buildLineup_of_not_mem
    (byPos : List (Option Position × List PlayerProps)) :
    ∀ (reqs : List (Position × Nat)) (pos : Position),
      pos ∉ reqs.map Prod.fst →
      lookupKey (buildLineup byPos reqs) pos = none
  | [], pos, _ => by
      rw [buildLineup]
      rfl
  | (q, n) :: rest, pos, h => by
      rw [List.map_cons, List.mem_cons] at h
      push_neg at h
      obtain ⟨h1, h2⟩ := h
      rw [buildLineup]
      cases hb : lookupKey byPos (some q) with
      | some ps =>
          simp only [lookupKey, if_neg h1]
          exact lookupKey_buildLineup_of_not_mem byPos rest pos h2
      | none => exact lookupKey_buildLineup_of_not_mem byPos rest pos h2

/-- Resolving a required position in the `optimal_lineup` entries. -/
theorem lookupKey_buildLineup (byPos : List (Option Position × List PlayerProps)) :
    ∀ (reqs : List (Position × Nat)) (pos : Position) (n : Nat),
      (reqs.map Prod.fst).Nodup → (pos, n) ∈ reqs →
      lookupKey (buildLineup byPos reqs) pos =
        (lookupKey byPos (some pos)).map fun ps => ps.take n
  | [], _, _, _, hm => by cases hm
  | (q, m) :: rest, pos, n, hn, hm => by
      rw [List.map_cons, List.nodup_cons] at hn
      rcases List.mem_cons.mp hm with heq | hm2
      · injection heq with hpq hnm
        subst hpq
        subst hnm
        cases hb : lookupKey byPos (some pos) with
        | some ps =>
            rw [buildLineup]
            simp [hb, lookupKey]
        | none =>
            rw [buildLineup]
            simp only [hb, Option.map_none']
            exact lookupKey_buildLineup_of_not_mem byPos rest pos hn.1
      · have hq : pos ≠ q := by
          rintro rfl
          exact hn.1 (List.mem_map.mpr ⟨(pos, n), hm2, rfl⟩)
        rw [buildLineup]
        cases hb : lookupKey byPos (some q) with
        | some ps =>
            simp only [lookupKey, if_neg hq]
            exact lookupKey_buildLineup byPos rest pos n hn.2 hm2
        | none => exact lookupKey_buildLineup byPos rest pos n hn.2 hm2

/-- The confidence-score list collected by `_project_qb_points` is exactly
the present-category weight list of the spec's QB table. -/
theorem projectQBPoints_confs (s : FantasyScoring) (cl : List (String × ℚ)) :
    (projectQBPoints s cl).2.2 = presentWeights Position.QB cl := by
  rw [projectQBPoints, presentWeights, categoryTable]
  cases h1 : lookupKey cl passYdsKey <;> cases h2 : lookupKey cl passTdsKey <;>
    cases h3 : lookupKey cl rushYdsKey <;> cases h4 : lookupKey cl rushTdsKey <;>
      simp [h1, h2, h3, h4]

/-- The confidence-score list collected by `_project_rb_points` is exactly
the present-category weight list of the spec's RB table. -/
theorem projectRBPoints_confs (s : FantasyScoring) (cl : List (String × ℚ)) :
    (projectRBPoints s cl).2.2 = presentWeights Position.RB cl := by
  rw [projectRBPoints, presentWeights, categoryTable]
  cases h1 : lookupKey cl rushYdsKey <;> cases h2 : lookupKey cl rushTdsKey <;>
    cases h3 : lookupKey cl receptionsKey <;> cases h4 : lookupKey cl recYdsKey <;>
      simp [h1, h2, h3, h4]

/-- The confidence-score list collected by `_project_wr_points` is exactly
the present-category weight list of the spec's WR table. -/
theorem projectWRPoints_confs (s : FantasyScoring) (cl : List (String × ℚ)) :
    (projectWRPoints s cl).2.2 = presentWeights Position.WR cl := by
  rw [projectWRPoints, presentWeights, categoryTable]
  cases h1 : lookupKey cl receptionsKey <;> cases h2 : lookupKey cl recYdsKey <;>
    cases h3 : lookupKey cl recTdsKey <;> simp [h1, h2, h3]

/-- Every weight of the spec's category table lies in `[0,1]`. -/
theorem presentWeights_bounds (pos : Position) (cl : List (String × ℚ)) :
    ∀ w ∈ presentWeights pos cl, 0 ≤ w ∧ w ≤ 1 := by
  intro w hw
  rw [presentWeights] at hw
  obtain ⟨kv, hkv, rfl⟩ := List.mem_map.mp hw
  have hmem : kv ∈ categoryTable pos := (List.mem_filter.mp hkv).1
  have : ∀ kv ∈ categoryTable pos, 0 ≤ kv.2 ∧ kv.2 ≤ 1 := by
    cases pos <;> intro kv hkv <;> rw [categoryTable] at hkv <;> fin_cases hkv <;>
      constructor <;> norm_num
  exact this kv hmem

/-- The TE projector inherits the WR weight table (which coincides with
the spec's TE table). -/
theorem projectTEPoints_confs (s : FantasyScoring) (cl : List (String × ℚ)) :
    (projectTEPoints s cl).2.2 = presentWeights Position.TE cl := by
  rw [projectTEPoints, projectWRPoints_confs]
  rfl

/-- The common shape of the overall-confidence computation, compared with
the spec's description. -/
theorem confidence_spec_aux (cl : List (String × ℚ)) (pos : Position) (confs : List ℚ)
    (hc : confs = presentWeights pos cl) :
    (if confs = [] then (1/2 : ℚ) else confs.sum / (confs.length : ℚ)) =
      specConfidence pos cl ∧
    (presentWeights pos cl = [] →
      (if confs = [] then (1/2 : ℚ) else confs.sum / (confs.length : ℚ)) = 1/2) ∧
    0 ≤ (if confs = [] then (1/2 : ℚ) else confs.sum / (confs.length : ℚ)) ∧
    (if confs = [] then (1/2 : ℚ) else confs.sum / (confs.length : ℚ)) ≤ 1 := by
  subst hc
  refine ⟨rfl, fun h => by rw [if_pos h], ?_, ?_⟩
  · exact (mean_in_unit _ (presentWeights_bounds pos cl)).1
  · exact (mean_in_unit _ (presentWeights_bounds pos cl)).2

/-- Resolving a market key in the consensus map. -/
theorem lookupKey_getConsensusLines (lines : List BettingLine) (k : String) :
    lookupKey (getConsensusLines lines) k =
      if k ∈ lines.map (·.prop_type) then
        some ((((lines.filter (fun l => l.prop_type == k)).map (·.line)).sum) /
          ((((lines.filter (fun l => l.prop_type == k)).map (·.line)).length : ℚ)))
      else none := by
  rw [getConsensusLines, lookupKey_map_self]
  simp only [mem_firstDedup]

theorem firstDedupAux_replicate {α : Type} [DecidableEq α] (k : α) :
    ∀ (n : Nat) (seen : List α), k ∈ seen →
      firstDedupAux (List.replicate n k) seen = []
  | 0, seen, _ => by rw [List.replicate, firstDedupAux]
  | n + 1, seen, h => by
      rw [List.replicate_succ, firstDedupAux, if_pos h]
      exact firstDedupAux_replicate k n seen h

theorem firstDedup_replicate {α : Type} [DecidableEq α] (k : α) (n : Nat) :
    firstDedup (List.replicate (n + 1) k) = [k] := by
  rw [firstDedup, List.replicate_succ, firstDedupAux,
    if_neg (List.not_mem_nil k)]
  rw [firstDedupAux_replicate k n _ (List.mem_cons_self _ _)]

theorem filter_replicate_self (q : BettingLine) :
    ∀ n : Nat,
      (List.replicate n q).filter (fun l => l.prop_type == q.prop_type) =
        List.replicate n q
  | 0 => rfl
  | n + 1 => by
      rw [List.replicate_succ, List.filter_cons]
      simp [filter_replicate_self q n]

/-- A position occurs among the eligible players' positions iff its
eligible count is positive. -/
theorem eligibleCount_pos_iff (roster : List PlayerProps) (pos : Position) :
    some pos ∈ (eligiblePlayers roster).map (·.position) ↔
      0 < eligibleCount roster pos := by
  rw [eligibleCount, List.length_pos]
  constructor
  · intro h hnil
    obtain ⟨p, hp, hpp⟩ := List.mem_map.mp h
    have : p ∈ (eligiblePlayers roster).filter (fun p => p.position == some pos) :=
      List.mem_filter.mpr ⟨hp, by simp [hpp]⟩
    rw [hnil] at this
    cases this
  · intro h
    obtain ⟨p, hp⟩ := List.exists_mem_of_ne_nil _ h
    have hm := List.mem_filter.mp hp
    refine List.mem_map.mpr ⟨p, hm.1, ?_⟩
    have := hm.2
    simpa using this

/-! Claim theorems. -/

/-- C9: under the Redraft league type (value multiplier 1.0) the trade
value of give = A, receive = B is the negation of the trade value of
give = B, receive = A. -/
theorem c9_trade_antisymmetric (A B : List PlayerProps) :
    (analyzeTrade A B LeagueType.redraft).trade_value =
      -(analyzeTrade B A LeagueType.redraft).trade_value := by
  simp only [analyzeTrade]
  ring

/-- C7: the comparator declares the matchup too close to call exactly when
the absolute point difference is strictly below 1.0; a difference of
exactly 1.0 (either sign) yields a start recommendation naming the
higher-projected player with the margin, and a difference of 0.99 yields
the too-close outcome. -/
theorem c7_comparator_boundary (n1 : String) (p1 : FantasyProjection)
    (n2 : String) (p2 : FantasyProjection) :
    ((comparePlayers n1 p1 n2 p2).recommendation = Recommendation.tooClose ↔
      |p1.projected_points - p2.projected_points| < 1) ∧
    (p1.projected_points - p2.projected_points = 1 →
      (comparePlayers n1 p1 n2 p2).recommendation = Recommendation.start n1 1) ∧
    (p1.projected_points - p2.projected_points = -1 →
      (comparePlayers n1 p1 n2 p2).recommendation = Recommendation.start n2 1) ∧
    (|p1.projected_points - p2.projected_points| = 99/100 →
      (comparePlayers n1 p1 n2 p2).recommendation = Recommendation.tooClose) := by
  refine ⟨?_, ?_, ?_, ?_⟩
  · rw [comparePlayers]
    split_ifs with h1 h2 <;> simp [h1]
  · intro hd
    rw [comparePlayers]
    rw [hd]
    norm_num
  · intro hd
    rw [comparePlayers]
    rw [hd]
    norm_num
  · intro hd
    rw [comparePlayers]
    simp only [hd]
    norm_num

/-- C7 witness: projections 10 vs 9 (margin exactly 1.0) start the higher
player; projections 9.99 vs 9 (margin 0.99) are too close to call. -/
theorem c7_comparator_boundary_witness :
    (comparePlayers "W7A" w7p1 "W7B" w7p2).recommendation =
      Recommendation.start "W7A" 1 ∧
    (comparePlayers "W7C" w7p3 "W7B" w7p2).recommendation =
      Recommendation.tooClose := by
  constructor
  · exact (c7_comparator_boundary "W7A" w7p1 "W7B" w7p2).2.1 (by norm_num [w7p1, w7p2])
  · refine (c7_comparator_boundary "W7C" w7p3 "W7B" w7p2).2.2.2 ?_
    rw [w7p3, w7p2]
    norm_num [abs_of_nonneg]

/-- C3 counterexample: a kicker with a betting line present receives a
zero-point projection (confidence 0.5) rather than an absent one, refuting
both "K is always absent" and "never a zero-point projection". -/
theorem c3_counterexample :
    generateFantasyProjection defaultScoring "Kicker One" (some Position.K) [kickLine] =
      some ⟨"Kicker One", Position.K, 0, 1/2, []⟩ := by
  rw [generateFantasyProjection]
  norm_num

/-- C3 (amended): the projection is absent exactly when the position is
unknown or no betting lines exist; for K or DST with lines present the
function returns a zero-point projection with confidence 0.5 and empty
breakdown instead of an absent one, so zero-point projections do occur. -/
theorem c3_amended (s : FantasyScoring) (nm : String) (pos : Option Position)
    (lines : List BettingLine) :
    (generateFantasyProjection s nm pos lines = none ↔ pos = none ∨ lines = []) ∧
    (lines ≠ [] →
      generateFantasyProjection s nm (some Position.K) lines =
        some ⟨nm, Position.K, 0, 1/2, []⟩ ∧
      generateFantasyProjection s nm (some Position.DST) lines =
        some ⟨nm, Position.DST, 0, 1/2, []⟩) := by
  constructor
  · cases pos with
    | none => simp [generateFantasyProjection]
    | some p =>
        by_cases hl : lines = [] <;> simp [generateFantasyProjection, hl]
  · intro hl
    constructor <;> simp [generateFantasyProjection, hl]

/-- C3 witness: a DST with a line present yields the zero-point
projection, and an unknown position yields an absent projection. -/
theorem c3_amended_witness :
    (generateFantasyProjection defaultScoring "Defense One" (some Position.DST) [kickLine] =
      some ⟨"Defense One", Position.DST, 0, 1/2, []⟩) ∧
    (generateFantasyProjection defaultScoring "Nobody" none [kickLine] = none) := by
  constructor
  · exact ((c3_amended defaultScoring "Defense One" (some Position.DST) [kickLine]).2
      (by simp)).2
  · exact (c3_amended defaultScoring "Nobody" none [kickLine]).1.mpr (Or.inl rfl)

/-- C5: a QB whose consensus map contains only a passing-yards line L
projects L / pass_yards_per_point points, with breakdown holding only the
passing_yards category at that value, and confidence 0.8. -/
theorem c5_qb_pass_yards_only (s : FantasyScoring) (nm : String)
    (lines : List BettingLine) (L : ℚ) (hne : lines ≠ [])
    (hcl : getConsensusLines lines = [(passYdsKey, L)]) :
    generateFantasyProjection s nm (some Position.QB) lines =
      some ⟨nm, Position.QB, L / s.pass_yards_per_point, 0.8,
        [("passing_yards", L / s.pass_yards_per_point)]⟩ := by
  rw [generateFantasyProjection]
  rw [if_neg hne, hcl]
  simp [projectQBPoints, lookupKey, passYdsKey, passTdsKey, rushYdsKey, rushTdsKey]

/-- C5 witness: a single 275-yard passing quote under the default rule
(pass_yards_per_point = 25) projects 11.0 points, breakdown
{passing_yards: 11.0}, confidence 0.8. -/
theorem c5_qb_pass_yards_only_witness :
    generateFantasyProjection defaultScoring "QB One" (some Position.QB) [q275] =
      some ⟨"QB One", Position.QB, 11, 0.8, [("passing_yards", 11)]⟩ := by
  have h := c5_qb_pass_yards_only defaultScoring "QB One" [q275] 275 (by simp)
    (by norm_num [getConsensusLines, firstDedup, firstDedupAux, q275, passYdsKey])
  rw [h]
  norm_num [defaultScoring]

/-- C6: the consensus function maps each present market type to the
arithmetic mean of its quoted line values, omits absent market types, maps
a single quote to that quote's line value, and maps N ≥ 1 identical quotes
to the shared line value. -/
theorem c6_consensus_mean (lines : List BettingLine) (k : String)
    (q : BettingLine) (n : Nat) :
    (k ∈ lines.map (·.prop_type) →
      lookupKey (getConsensusLines lines) k =
        some ((((lines.filter (fun l => l.prop_type == k)).map (·.line)).sum) /
          ((((lines.filter (fun l => l.prop_type == k)).map (·.line)).length : ℚ)))) ∧
    (k ∉ lines.map (·.prop_type) → lookupKey (getConsensusLines lines) k = none) ∧
    (getConsensusLines [q] = [(q.prop_type, q.line)]) ∧
    (1 ≤ n → getConsensusLines (List.replicate n q) = [(q.prop_type, q.line)]) := by
  refine ⟨?_, ?_, ?_, ?_⟩
  · intro hk
    rw [lookupKey_getConsensusLines, if_pos hk]
  · intro hk
    rw [lookupKey_getConsensusLines, if_neg hk]
  · simp [getConsensusLines, firstDedup, firstDedupAux]
  · intro hn
    obtain ⟨m, rfl⟩ : ∃ m, n = m + 1 := ⟨n - 1, by omega⟩
    rw [getConsensusLines]
    rw [show (List.replicate (m + 1) q).map (·.prop_type) =
      List.replicate (m + 1) q.prop_type from List.map_replicate ..]
    rw [firstDedup_replicate, List.map_cons, List.map_nil]
    rw [filter_replicate_self]
    simp only [List.map_replicate, List.sum_replicate, List.length_replicate]
    have hne : ((m + 1 : Nat) : ℚ) ≠ 0 := Nat.cast_ne_zero.mpr (by omega)
    rw [nsmul_eq_mul, mul_div_cancel_left₀ _ hne]

/-- C6 witness: two 250/300 passing-yards quotes average to 275; an absent
market is omitted; a single quote and three identical quotes both map to
the quote's own line. -/
theorem c6_consensus_mean_witness :
    lookupKey (getConsensusLines [qa250, qb300]) "player_pass_yds" = some 275 ∧
    lookupKey (getConsensusLines [qa250, qb300]) "player_rush_yds" = none ∧
    getConsensusLines [qa250] = [("player_pass_yds", 250)] ∧
    getConsensusLines (List.replicate 3 qa250) = [("player_pass_yds", 250)] := by
  have h := c6_consensus_mean [qa250, qb300] "player_pass_yds" qa250 3
  have h2 := c6_consensus_mean [qa250, qb300] "player_rush_yds" qa250 3
  refine ⟨?_, ?_, ?_, ?_⟩
  · rw [h.1 (by simp [qa250, qb300])]
    norm_num [qa250, qb300]
  · exact h2.2.1 (by simp [qa250, qb300])
  · rw [h.2.2.1]
    simp [qa250]
  · rw [h.2.2.2 (by norm_num)]
    simp [qa250]

/-- C4: every produced projection's confidence equals the arithmetic mean
of the fixed per-category confidence weights of exactly the listed
categories present in the consensus map, equals 0.5 when no listed
category is present, and lies in the closed interval [0,1]. -/
theorem c4_confidence (s : FantasyScoring) (nm : String) (pos : Option Position)
    (lines : List BettingLine) (proj : FantasyProjection)
    (h : generateFantasyProjection s nm pos lines = some proj) :
    proj.confidence = specConfidence proj.position (getConsensusLines lines) ∧
    (presentWeights proj.position (getConsensusLines lines) = [] →
      proj.confidence = 1/2) ∧
    0 ≤ proj.confidence ∧ proj.confidence ≤ 1 := by
  cases pos with
  | none => simp [generateFantasyProjection] at h
  | some p =>
      by_cases hl : lines = []
      · simp [generateFantasyProjection, hl] at h
      · rw [generateFantasyProjection.eq_def] at h
        dsimp only at h
        rw [if_neg hl] at h
        have hproj := Option.some.inj h
        subst hproj
        cases p <;> dsimp only
        · exact confidence_spec_aux (getConsensusLines lines) Position.QB _
            (projectQBPoints_confs s (getConsensusLines lines))
        · exact confidence_spec_aux (getConsensusLines lines) Position.RB _
            (projectRBPoints_confs s (getConsensusLines lines))
        · exact confidence_spec_aux (getConsensusLines lines) Position.WR _
            (projectWRPoints_confs s (getConsensusLines lines))
        · exact confidence_spec_aux (getConsensusLines lines) Position.TE _
            (projectTEPoints_confs s (getConsensusLines lines))
        · refine ⟨?_, fun _ => ?_, ?_, ?_⟩ <;>
            norm_num [specConfidence, presentWeights, categoryTable]
        · refine ⟨?_, fun _ => ?_, ?_, ?_⟩ <;>
            norm_num [specConfidence, presentWeights, categoryTable]

/-- C4 witness: the projection of a lone 275-yard passing quote has
confidence 4/5 = 0.8, the mean of the only present weight, within
[0,1]. -/
theorem c4_confidence_witness :
    c4proj.confidence = specConfidence c4proj.position (getConsensusLines [q275]) ∧
    (presentWeights c4proj.position (getConsensusLines [q275]) = [] →
      c4proj.confidence = 1/2) ∧
    0 ≤ c4proj.confidence ∧ c4proj.confidence ≤ 1 := by
  refine c4_confidence defaultScoring "QB One" (some Position.QB) [q275] c4proj ?_
  rw [generateFantasyProjection]
  simp [getConsensusLines, firstDedup, firstDedupAux, q275, projectQBPoints,
    lookupKey, passYdsKey, passTdsKey, rushYdsKey, rushTdsKey, defaultScoring, c4proj]
  norm_num

/-- C8: the lineup optimizer selects at most the position's requirement,
at least the minimum of the requirement and the number of eligible
(projected) players at that position, and its reported total is the sum of
the selected starters' projected points only. -/
theorem c8_lineup_bounds (roster : List PlayerProps) (reqs : List (Position × Nat))
    (hn : (reqs.map Prod.fst).Nodup) (pos : Position) (n : Nat)
    (hm : (pos, n) ∈ reqs) :
    ((lookupKey (optimizeLineup roster reqs).optimal_lineup pos).getD []).length ≤ n ∧
    min n (eligibleCount roster pos) ≤
      ((lookupKey (optimizeLineup roster reqs).optimal_lineup pos).getD []).length ∧
    (optimizeLineup roster reqs).total_projected_points =
      ((optimizeLineup roster reqs).optimal_lineup.map
        (fun kv => (kv.2.map projPoints).sum)).sum := by
  have hol : (optimizeLineup roster reqs).optimal_lineup =
      buildLineup ((groupByPosition roster).map fun kv => (kv.1, sortByPointsDesc kv.2))
        reqs := rfl
  have hlen : ((lookupKey (optimizeLineup roster reqs).optimal_lineup pos).getD []).length =
      min n (eligibleCount roster pos) := by
    rw [hol, lookupKey_buildLineup _ reqs pos n hn hm, lookupKey_byPos]
    by_cases hmem : some pos ∈ (eligiblePlayers roster).map (·.position)
    · rw [if_pos hmem]
      rw [Option.map_some', Option.getD_some, List.length_take, length_sortByPointsDesc]
      rfl
    · rw [if_neg hmem]
      have hc : eligibleCount roster pos = 0 := by
        by_contra hne
        exact hmem ((eligibleCount_pos_iff roster pos).mpr (Nat.pos_of_ne_zero hne))
      rw [Option.map_none', Option.getD_none]
      simp [hc]
  refine ⟨?_, ?_, rfl⟩
  · rw [hlen]
    exact min_le_left _ _
  · rw [hlen]

/-- C8 witness: two eligible WRs and one unprojected player under
requirements WR:2, RB:1. -/
theorem c8_lineup_bounds_witness :
    ((lookupKey (optimizeLineup [w8a, w8b, w8c]
        [(Position.WR, 2), (Position.RB, 1)]).optimal_lineup Position.WR).getD
      []).length ≤ 2 ∧
    min 2 (eligibleCount [w8a, w8b, w8c] Position.WR) ≤
      ((lookupKey (optimizeLineup [w8a, w8b, w8c]
          [(Position.WR, 2), (Position.RB, 1)]).optimal_lineup Position.WR).getD
        []).length ∧
    (optimizeLineup [w8a, w8b, w8c]
        [(Position.WR, 2), (Position.RB, 1)]).total_projected_points =
      ((optimizeLineup [w8a, w8b, w8c]
          [(Position.WR, 2), (Position.RB, 1)]).optimal_lineup.map
        (fun kv => (kv.2.map projPoints).sum)).sum :=
  c8_lineup_bounds [w8a, w8b, w8c] [(Position.WR, 2), (Position.RB, 1)]
    (by decide) Position.WR 2 (by decide)

/-- C1 counterexample: the must-include phase commits players without any
salary-cap (or per-team) check, so a must-include player whose salary
exceeds the cap yields a lineup whose total salary exceeds the cap. -/
theorem c1_counterexample :
    ¬ ((buildDFSLineup c1Pool c1Reqs c1Cons).total_salary ≤ c1Cons.salary_cap) := by
  have h : (buildDFSLineup c1Pool c1Reqs c1Cons).total_salary = 60000 := by
    simp [buildDFSLineup, mustIncludePhase, scanPositions, fillPhase, fillStep,
      fillPosition, commitMust, ensureKey, appendAt, removeAt, lookupKey, lineupLen,
      teamCount, bumpTeam, c1Pool, c1Reqs, c1Cons, c1qb]
  rw [h]
  simp [c1Cons]

/-- C1 (amended): when the must-include list is empty (so only the fill
phase, which checks both constraints, commits players) and the salary cap
is nonnegative, the total salary never exceeds the cap and no team's
committed count exceeds the per-team limit. -/
theorem c1_amended (pool : List (Position × List DFSPlayer))
    (reqs : List (Position × Nat)) (c : DFSConstraints)
    (hmi : c.must_include = []) (hcap : 0 ≤ c.salary_cap) :
    (buildDFSLineup pool reqs c).total_salary ≤ c.salary_cap ∧
      ∀ t, teamCount (buildDFSLineup pool reqs c).team_distribution t ≤
        c.max_players_per_team := by
  have h0 : mustIncludePhase reqs c.must_include ⟨[], 0, 0, [], pool⟩ =
      ⟨[], 0, 0, [], pool⟩ := by
    rw [hmi, mustIncludePhase]
  have hinv := fillPhase_cap_team c.salary_cap c.max_players_per_team reqs
    ⟨[], 0, 0, [], pool⟩ hcap (fun t => by simp [teamCount, lookupKey])
  constructor
  · show (fillPhase c.salary_cap c.max_players_per_team reqs
      (mustIncludePhase reqs c.must_include ⟨[], 0, 0, [], pool⟩)).total_salary ≤
      c.salary_cap
    rw [h0]
    exact hinv.1
  · intro t
    show teamCount (fillPhase c.salary_cap c.max_players_per_team reqs
      (mustIncludePhase reqs c.must_include ⟨[], 0, 0, [], pool⟩)).team_counts t ≤
      c.max_players_per_team
    rw [h0]
    exact hinv.2 t

/-- C1 witness: a one-player pool with no must-include list stays within
the cap and the per-team limit. -/
theorem c1_amended_witness :
    (buildDFSLineup c1wPool c1Reqs c1wCons).total_salary ≤ c1wCons.salary_cap ∧
    teamCount (buildDFSLineup c1wPool c1Reqs c1wCons).team_distribution "KC" ≤
      c1wCons.max_players_per_team :=
  ⟨(c1_amended c1wPool c1Reqs c1wCons rfl (by decide)).1,
   (c1_amended c1wPool c1Reqs c1wCons rfl (by decide)).2 "KC"⟩

/-- C2 counterexample: two must-include players for one required slot:
the optimizer returns the ordinary success-shaped result with the second
player silently dropped — there is no distinct infeasible outcome. -/
theorem c2_counterexample :
    buildDFSLineup c2Pool c2Reqs c2Cons =
      ⟨[(Position.QB, [c2a])], 6000, 20, 44000, [("KC", 1)]⟩ := by
  simp [buildDFSLineup, mustIncludePhase, scanPositions, fillPhase, fillStep,
    fillPosition, commitMust, ensureKey, appendAt, removeAt, lookupKey, lineupLen,
    teamCount, bumpTeam, c2Pool, c2Reqs, c2Cons, c2a, c2b]

/-- C2 (amended): the optimizer never returns a distinct infeasible
outcome; on every input — in particular when the must-include set exceeds
the sum of required slots — it returns the ordinary result structure in
which no position holds more players than its requirement, so surplus
must-include players are silently dropped. -/
theorem c2_amended (pool : List (Position × List DFSPlayer))
    (reqs : List (Position × Nat)) (c : DFSConstraints)
    (hn : (reqs.map Prod.fst).Nodup) :
    ∀ pos, lineupLen (buildDFSLineup pool reqs c).lineup pos ≤
      (lookupKey reqs pos).getD 0 := by
  intro pos
  show lineupLen (fillPhase c.salary_cap c.max_players_per_team reqs
    (mustIncludePhase reqs c.must_include ⟨[], 0, 0, [], pool⟩)).lineup pos ≤
    (lookupKey reqs pos).getD 0
  refine fillPhase_req c.salary_cap c.max_players_per_team
    (fun q => (lookupKey reqs q).getD 0) reqs _ ?_ ?_ pos
  · intro pr hpr
    show pr.2 ≤ (lookupKey reqs pr.1).getD 0
    rw [lookupKey_eq_of_mem_nodup reqs pr.1 pr.2 hn (by simpa using hpr)]
    simp
  · refine mustIncludePhase_req reqs c.must_include _ (fun q => ?_)
    simp [lineupLen, lookupKey]

/-- C2 witness: with two must-include players and one slot, the QB count
stays within the requirement (the second player is dropped). -/
theorem c2_amended_witness :
    lineupLen (buildDFSLineup c2Pool c2Reqs c2Cons).lineup Position.QB ≤
      (lookupKey c2Reqs Position.QB).getD 0 :=
  c2_amended c2Pool c2Reqs c2Cons (by decide) Position.QB

/-- C10: the fill phase examines only the first `3 × slots-needed`
candidates per position: on this input the single RB slot stays empty
although the fourth candidate (beyond the window of 3) fits under both the
salary cap and the per-team limit; truncating the candidate list to its
first three entries does not change the result. -/
theorem c10_fill_window :
    buildDFSLineup c10Pool c10Reqs c10Cons =
      ⟨[(Position.RB, [])], 0, 0, 50000, []⟩ ∧
    lineupLen (buildDFSLineup c10Pool c10Reqs c10Cons).lineup Position.RB <
      (lookupKey c10Reqs Position.RB).getD 0 ∧
    (buildDFSLineup c10Pool c10Reqs c10Cons).total_salary + c10r4.salary ≤
      c10Cons.salary_cap ∧
    teamCount (buildDFSLineup c10Pool c10Reqs c10Cons).team_distribution c10r4.team <
      c10Cons.max_players_per_team ∧
    c10r4 ∈ (lookupKey c10Pool Position.RB).getD [] ∧
    c10r4 ∉ ((lookupKey c10Pool Position.RB).getD []).take 3 ∧
    List.Pairwise (fun a b => b.points_per_dollar ≤ a.points_per_dollar)
      ((lookupKey c10Pool Position.RB).getD []) ∧
    ((lookupKey c10Pool Position.RB).getD []).all
      (fun p => p.points_per_dollar == pointsPerDollar p.projected_points p.salary) =
      true ∧
    buildDFSLineup c10Pool c10Reqs c10Cons =
      buildDFSLineup [(Position.RB, [c10r1, c10r2, c10r3])] c10Reqs c10Cons := by
  have hres : buildDFSLineup c10Pool c10Reqs c10Cons =
      ⟨[(Position.RB, [])], 0, 0, 50000, []⟩ := by
    simp [buildDFSLineup, mustIncludePhase, fillPhase, fillStep, fillPosition,
      ensureKey, appendAt, lookupKey, lineupLen, teamCount, c10Pool, c10Reqs,
      c10Cons, c10r1, c10r2, c10r3, c10r4]
  have hres3 : buildDFSLineup [(Position.RB, [c10r1, c10r2, c10r3])] c10Reqs c10Cons =
      ⟨[(Position.RB, [])], 0, 0, 50000, []⟩ := by
    simp [buildDFSLineup, mustIncludePhase, fillPhase, fillStep, fillPosition,
      ensureKey, appendAt, lookupKey, lineupLen, teamCount, c10Reqs,
      c10Cons, c10r1, c10r2, c10r3]
  refine ⟨hres, ?_, ?_, ?_, ?_, ?_, ?_, ?_, hres.trans hres3.symm⟩
  · rw [hres]
    simp [lineupLen, lookupKey, c10Reqs]
  · rw [hres]
    simp [c10r4, c10Cons]
  · rw [hres]
    simp [teamCount, lookupKey, c10r4, c10Cons]
  · simp [c10Pool, lookupKey]
  · simp [c10Pool, lookupKey, c10r1, c10r2, c10r3, c10r4]
  · norm_num [c10Pool, lookupKey, List.pairwise_cons, c10r1, c10r2, c10r3, c10r4,
      pointsPerDollar]
  · simp [c10Pool, lookupKey, c10r1, c10r2, c10r3, c10r4]

end FantasyEdge
